import Mathlib

/-!
# Verification of the periodontal-chart core

A shallow embedding of the core logic of the periodontal chart component
(`src/components/dental-periodontal-chart.tsx` and `src/lib/chart-utils.ts`):
the tooth catalogue, the keyboard-navigation map, the default/merge chart
initializer, the numeric-input commit pipeline, the validation engine, the
immutable field update, the submission gate and the summary statistics.

Machine integers are modelled as `Int`/`Nat`; JavaScript strings as `String`;
JS `Map`s and objects keyed by strings as association lists (keys are unique
in every map the source builds, so first-match lookup coincides with JS `Map`
semantics).
-/

/-! ## Tooth catalogue (`TOOTH_GROUPS`, `ALL_TEETH`) -/

def TOOTH_GROUPS_upperRight : List String := ["18", "17", "16", "15", "14", "13", "12", "11"]

def TOOTH_GROUPS_upperLeft : List String := ["21", "22", "23", "24", "25", "26", "27", "28"]

def TOOTH_GROUPS_lowerLeft : List String := ["31", "32", "33", "34", "35", "36", "37", "38"]

def TOOTH_GROUPS_lowerRight : List String := ["48", "47", "46", "45", "44", "43", "42", "41"]

/-- `Object.values(TOOTH_GROUPS).flat()`: the flattened 32-tooth catalogue. -/
def ALL_TEETH : List String :=
  TOOTH_GROUPS_upperRight ++ TOOTH_GROUPS_upperLeft ++ TOOTH_GROUPS_lowerLeft ++
    TOOTH_GROUPS_lowerRight

/-! ## Navigation map (`createNavigationMap`, `NAVIGATION_MAP`) -/

/-- One value of the navigation map: the four neighbour cell keys. -/
structure NavEntry where
  next : String
  prev : String
  up : String
  down : String
deriving DecidableEq, Repr

/-- The fixed 16-entry field order used by `createNavigationMap`. -/
def navFields : List String :=
  ["mobility", "implant", "furcation",
   "bleeding_on_probing_distal", "bleeding_on_probing_mid", "bleeding_on_probing_mesial",
   "plaque_on_probing_distal", "plaque_on_probing_mid", "plaque_on_probing_mesial",
   "gingival_margin_distal", "gingival_margin_mid", "gingival_margin_mesial",
   "probing_depth_distal", "probing_depth_mid", "probing_depth_mesial",
   "notes"]

/-- The two surface names, in the iteration order of `createNavigationMap`. -/
def SURFACES : List String := ["buccal", "palatal"]

/-- `createNavigationMap()`: for each tooth (with index), surface and field
(with index), an entry keyed `"{tooth}-{surface}-{field}"` whose neighbours
follow the source's index arithmetic.  The JS `Map` is modelled as an
association list in insertion order; all keys are distinct (proved below), so
`List.lookup` agrees with `Map.get`. -/
def NAVIGATION_MAP : List (String × NavEntry) :=
  ALL_TEETH.enum.flatMap (fun tp =>
    SURFACES.flatMap (fun surface =>
      navFields.enum.map (fun fp =>
        let toothIndex := tp.1
        let tooth := tp.2
        let fieldIndex := fp.1
        let field := fp.2
        let nextToothIndex := (toothIndex + 1) % ALL_TEETH.length
        let prevToothIndex := if toothIndex = 0 then ALL_TEETH.length - 1 else toothIndex - 1
        let nextFieldIndex := (fieldIndex + 1) % navFields.length
        let prevFieldIndex := if fieldIndex = 0 then navFields.length - 1 else fieldIndex - 1
        (tooth ++ "-" ++ surface ++ "-" ++ field,
         { next := (ALL_TEETH.getD nextToothIndex "") ++ "-" ++ surface ++ "-" ++ field,
           prev := (ALL_TEETH.getD prevToothIndex "") ++ "-" ++ surface ++ "-" ++ field,
           up := tooth ++ "-" ++ surface ++ "-" ++ (navFields.getD prevFieldIndex ""),
           down := tooth ++ "-" ++ surface ++ "-" ++ (navFields.getD nextFieldIndex "") }))))

/-- `handleKeyDown`'s resolution step: look the current key up in
`NAVIGATION_MAP` and select the direction; unknown keys and unknown
directions resolve to nothing (no-op). -/
def navigate (key dir : String) : Option String :=
  match NAVIGATION_MAP.lookup key with
  | none => none
  | some nav =>
    match dir with
    | "next" => some nav.next
    | "prev" => some nav.prev
    | "up" => some nav.up
    | "down" => some nav.down
    | _ => none

/-- The cell key `"{tooth}-{surface}-{field}"` of tooth-index `i`, surface
`s` and field-index `j`. -/
def cellKey (i : Nat) (s : String) (j : Nat) : String :=
  ALL_TEETH.getD i "" ++ "-" ++ s ++ "-" ++ navFields.getD j ""

/-- The navigation entry the source computes for tooth-index `i`, surface `s`
and field-index `j` (source form of the index arithmetic). -/
def navEntryAt (i : Nat) (s : String) (j : Nat) : NavEntry :=
  { next := cellKey ((i + 1) % 32) s j
    prev := cellKey (if i = 0 then 31 else i - 1) s j
    up := cellKey i s (if j = 0 then 15 else j - 1)
    down := cellKey i s ((j + 1) % 16) }

/-- All (tooth-index, surface, field-index) triples in map iteration order. -/
def navTriples : List (Nat × String × Nat) :=
  (List.range 32).product (SURFACES.product (List.range 16))

/-- `NAVIGATION_MAP` re-indexed by the triples list. -/
def specNavMap : List (String × NavEntry) :=
  navTriples.map (fun t => (cellKey t.1 t.2.1 t.2.2, navEntryAt t.1 t.2.1 t.2.2))

/-! ## Measurement data model (`ToothMeasurement`, `ToothData`, chart) -/

/-- One measurement record per tooth per surface (interface `ToothMeasurement`). -/
structure ToothMeasurement where
  present : Bool
  mobility : Int
  implant : Bool
  furcation : Int
  bleeding_on_probing_distal : Bool
  bleeding_on_probing_mid : Bool
  bleeding_on_probing_mesial : Bool
  plaque_on_probing_distal : Bool
  plaque_on_probing_mid : Bool
  plaque_on_probing_mesial : Bool
  gingival_margin_distal : Int
  gingival_margin_mid : Int
  gingival_margin_mesial : Int
  probing_depth_distal : Int
  probing_depth_mid : Int
  probing_depth_mesial : Int
  notes : String
deriving DecidableEq, Repr

/-- `createDefaultMeasurement()`. -/
def createDefaultMeasurement : ToothMeasurement :=
  { present := true
    mobility := 0
    implant := false
    furcation := 0
    bleeding_on_probing_distal := false
    bleeding_on_probing_mid := false
    bleeding_on_probing_mesial := false
    plaque_on_probing_distal := false
    plaque_on_probing_mid := false
    plaque_on_probing_mesial := false
    gingival_margin_distal := 0
    gingival_margin_mid := 0
    gingival_margin_mesial := 0
    probing_depth_distal := 0
    probing_depth_mid := 0
    probing_depth_mesial := 0
    notes := "" }

/-- The field names of `ToothMeasurement` (`keyof ToothMeasurement`). -/
inductive MField where
  | present | mobility | implant | furcation
  | bleeding_on_probing_distal | bleeding_on_probing_mid | bleeding_on_probing_mesial
  | plaque_on_probing_distal | plaque_on_probing_mid | plaque_on_probing_mesial
  | gingival_margin_distal | gingival_margin_mid | gingival_margin_mesial
  | probing_depth_distal | probing_depth_mid | probing_depth_mesial
  | notes
deriving DecidableEq, Repr

/-- A field value: numeric, boolean or text (the three value kinds a
`ToothMeasurement` field can hold). -/
inductive FieldVal where
  | num (n : Int)
  | flag (b : Bool)
  | text (s : String)
deriving DecidableEq, Repr

/-- Value kinds, used to express that an update passes a value of the
field's declared type (as every caller in the source does). -/
inductive FieldKind where
  | numK | flagK | textK
deriving DecidableEq, Repr

def MField.kind : MField → FieldKind
  | .present => .flagK
  | .mobility => .numK
  | .implant => .flagK
  | .furcation => .numK
  | .bleeding_on_probing_distal => .flagK
  | .bleeding_on_probing_mid => .flagK
  | .bleeding_on_probing_mesial => .flagK
  | .plaque_on_probing_distal => .flagK
  | .plaque_on_probing_mid => .flagK
  | .plaque_on_probing_mesial => .flagK
  | .gingival_margin_distal => .numK
  | .gingival_margin_mid => .numK
  | .gingival_margin_mesial => .numK
  | .probing_depth_distal => .numK
  | .probing_depth_mid => .numK
  | .probing_depth_mesial => .numK
  | .notes => .textK

def FieldVal.kind : FieldVal → FieldKind
  | .num _ => .numK
  | .flag _ => .flagK
  | .text _ => .textK

/-- The value `v` has the kind field `f` declares. -/
def matchesKind (f : MField) (v : FieldVal) : Prop := f.kind = v.kind

/-- Read field `f` of a measurement (`m[field]`). -/
def getField (m : ToothMeasurement) : MField → FieldVal
  | .present => .flag m.present
  | .mobility => .num m.mobility
  | .implant => .flag m.implant
  | .furcation => .num m.furcation
  | .bleeding_on_probing_distal => .flag m.bleeding_on_probing_distal
  | .bleeding_on_probing_mid => .flag m.bleeding_on_probing_mid
  | .bleeding_on_probing_mesial => .flag m.bleeding_on_probing_mesial
  | .plaque_on_probing_distal => .flag m.plaque_on_probing_distal
  | .plaque_on_probing_mid => .flag m.plaque_on_probing_mid
  | .plaque_on_probing_mesial => .flag m.plaque_on_probing_mesial
  | .gingival_margin_distal => .num m.gingival_margin_distal
  | .gingival_margin_mid => .num m.gingival_margin_mid
  | .gingival_margin_mesial => .num m.gingival_margin_mesial
  | .probing_depth_distal => .num m.probing_depth_distal
  | .probing_depth_mid => .num m.probing_depth_mid
  | .probing_depth_mesial => .num m.probing_depth_mesial
  | .notes => .text m.notes

/-- `{...m, [field]: value}`: replace one field, keep the rest.  A value of
the wrong kind leaves the record unchanged (that case is unreachable: every
call site in the source passes a value of the field's declared type). -/
def setField (m : ToothMeasurement) : MField → FieldVal → ToothMeasurement
  | .present, .flag b => { m with present := b }
  | .mobility, .num n => { m with mobility := n }
  | .implant, .flag b => { m with implant := b }
  | .furcation, .num n => { m with furcation := n }
  | .bleeding_on_probing_distal, .flag b => { m with bleeding_on_probing_distal := b }
  | .bleeding_on_probing_mid, .flag b => { m with bleeding_on_probing_mid := b }
  | .bleeding_on_probing_mesial, .flag b => { m with bleeding_on_probing_mesial := b }
  | .plaque_on_probing_distal, .flag b => { m with plaque_on_probing_distal := b }
  | .plaque_on_probing_mid, .flag b => { m with plaque_on_probing_mid := b }
  | .plaque_on_probing_mesial, .flag b => { m with plaque_on_probing_mesial := b }
  | .gingival_margin_distal, .num n => { m with gingival_margin_distal := n }
  | .gingival_margin_mid, .num n => { m with gingival_margin_mid := n }
  | .gingival_margin_mesial, .num n => { m with gingival_margin_mesial := n }
  | .probing_depth_distal, .num n => { m with probing_depth_distal := n }
  | .probing_depth_mid, .num n => { m with probing_depth_mid := n }
  | .probing_depth_mesial, .num n => { m with probing_depth_mesial := n }
  | .notes, .text s => { m with notes := s }
  | _, _ => m

/-- A partial measurement override (`Partial<ToothMeasurement>`); `none`
models an absent key. -/
structure PartialMeasurement where
  present : Option Bool := none
  mobility : Option Int := none
  implant : Option Bool := none
  furcation : Option Int := none
  bleeding_on_probing_distal : Option Bool := none
  bleeding_on_probing_mid : Option Bool := none
  bleeding_on_probing_mesial : Option Bool := none
  plaque_on_probing_distal : Option Bool := none
  plaque_on_probing_mid : Option Bool := none
  plaque_on_probing_mesial : Option Bool := none
  gingival_margin_distal : Option Int := none
  gingival_margin_mid : Option Int := none
  gingival_margin_mesial : Option Int := none
  probing_depth_distal : Option Int := none
  probing_depth_mid : Option Int := none
  probing_depth_mesial : Option Int := none
  notes : Option String := none
deriving DecidableEq, Repr

/-- The override's value for field `f`, if present. -/
def getPartialField (p : PartialMeasurement) : MField → Option FieldVal
  | .present => p.present.map .flag
  | .mobility => p.mobility.map .num
  | .implant => p.implant.map .flag
  | .furcation => p.furcation.map .num
  | .bleeding_on_probing_distal => p.bleeding_on_probing_distal.map .flag
  | .bleeding_on_probing_mid => p.bleeding_on_probing_mid.map .flag
  | .bleeding_on_probing_mesial => p.bleeding_on_probing_mesial.map .flag
  | .plaque_on_probing_distal => p.plaque_on_probing_distal.map .flag
  | .plaque_on_probing_mid => p.plaque_on_probing_mid.map .flag
  | .plaque_on_probing_mesial => p.plaque_on_probing_mesial.map .flag
  | .gingival_margin_distal => p.gingival_margin_distal.map .num
  | .gingival_margin_mid => p.gingival_margin_mid.map .num
  | .gingival_margin_mesial => p.gingival_margin_mesial.map .num
  | .probing_depth_distal => p.probing_depth_distal.map .num
  | .probing_depth_mid => p.probing_depth_mid.map .num
  | .probing_depth_mesial => p.probing_depth_mesial.map .num
  | .notes => p.notes.map .text

/-- `{...d, ...p}`: the field-wise object spread of a partial override over a
full measurement. -/
def mergeMeasurement (d : ToothMeasurement) (p : PartialMeasurement) : ToothMeasurement :=
  { present := p.present.getD d.present
    mobility := p.mobility.getD d.mobility
    implant := p.implant.getD d.implant
    furcation := p.furcation.getD d.furcation
    bleeding_on_probing_distal := p.bleeding_on_probing_distal.getD d.bleeding_on_probing_distal
    bleeding_on_probing_mid := p.bleeding_on_probing_mid.getD d.bleeding_on_probing_mid
    bleeding_on_probing_mesial := p.bleeding_on_probing_mesial.getD d.bleeding_on_probing_mesial
    plaque_on_probing_distal := p.plaque_on_probing_distal.getD d.plaque_on_probing_distal
    plaque_on_probing_mid := p.plaque_on_probing_mid.getD d.plaque_on_probing_mid
    plaque_on_probing_mesial := p.plaque_on_probing_mesial.getD d.plaque_on_probing_mesial
    gingival_margin_distal := p.gingival_margin_distal.getD d.gingival_margin_distal
    gingival_margin_mid := p.gingival_margin_mid.getD d.gingival_margin_mid
    gingival_margin_mesial := p.gingival_margin_mesial.getD d.gingival_margin_mesial
    probing_depth_distal := p.probing_depth_distal.getD d.probing_depth_distal
    probing_depth_mid := p.probing_depth_mid.getD d.probing_depth_mid
    probing_depth_mesial := p.probing_depth_mesial.getD d.probing_depth_mesial
    notes := p.notes.getD d.notes }

inductive Surface where
  | buccal | palatal
deriving DecidableEq, Repr

def surfaceName : Surface → String
  | .buccal => "buccal"
  | .palatal => "palatal"

/-- `ToothData`: the two surfaces of one tooth. -/
structure ToothData where
  buccal : ToothMeasurement
  palatal : ToothMeasurement
deriving DecidableEq, Repr

def ToothData.surf (td : ToothData) : Surface → ToothMeasurement
  | .buccal => td.buccal
  | .palatal => td.palatal

def ToothData.setSurf (td : ToothData) : Surface → ToothMeasurement → ToothData
  | .buccal, m => { td with buccal := m }
  | .palatal, m => { td with palatal := m }

def Surface.other : Surface → Surface
  | .buccal => .palatal
  | .palatal => .buccal

/-- An initial-values entry (`Partial<ToothData>`). -/
structure PartialToothData where
  buccal : Option PartialMeasurement := none
  palatal : Option PartialMeasurement := none
deriving DecidableEq, Repr

def PartialToothData.surf (p : PartialToothData) : Surface → Option PartialMeasurement
  | .buccal => p.buccal
  | .palatal => p.palatal

/-- `PeriodontalChartData`: a string-keyed object, modelled as an
association list in insertion order. -/
abbrev Chart : Type := List (String × ToothData)

/-- `Partial<PeriodontalChartData>`, the `initialValues` prop. -/
abbrev InitialValues : Type := List (String × PartialToothData)

/-- The empty partial override (the spread of `undefined`). -/
def emptyPartial : PartialMeasurement := {}

/-- The `useState` initializer: for every catalogue tooth, spread the
caller's partial override (if any) for each surface over the default. -/
def initializeChart (init : InitialValues) : Chart :=
  ALL_TEETH.map (fun tooth =>
    (tooth,
     { buccal := mergeMeasurement createDefaultMeasurement
         ((List.lookup tooth init |>.bind PartialToothData.buccal).getD emptyPartial)
       palatal := mergeMeasurement createDefaultMeasurement
         ((List.lookup tooth init |>.bind PartialToothData.palatal).getD emptyPartial) }))

/-! ## Immutable update (`handleUpdate`) -/

/-- `{...prev, [tooth]: td}`: replace the entry if the key exists, append it
otherwise (JS object key semantics: an existing key keeps its position). -/
def setChartEntry (c : Chart) (tooth : String) (td : ToothData) : Chart :=
  if (List.lookup tooth c).isSome then
    c.map (fun e => if e.1 = tooth then (tooth, td) else e)
  else
    c ++ [(tooth, td)]

/-- `handleUpdate`: create the tooth with two default measurements if absent
(defensive case), then replace the targeted surface's targeted field. -/
def handleUpdate (c : Chart) (tooth : String) (s : Surface) (f : MField) (v : FieldVal) :
    Chart :=
  let base := (List.lookup tooth c).getD ⟨createDefaultMeasurement, createDefaultMeasurement⟩
  setChartEntry c tooth (base.setSurf s (setField (base.surf s) f v))

/-! ## Validation engine (`VALIDATION_RULES`, `validateToothData`) -/

/-- One validation rule (`{min, max, required}`). -/
structure Rule where
  min : Int
  max : Int
  required : Bool
deriving DecidableEq, Repr

/-- `VALIDATION_RULES`: the fixed rule map, in insertion order. -/
def VALIDATION_RULES : List (String × Rule) :=
  [("mobility", ⟨0, 3, true⟩),
   ("furcation", ⟨0, 3, true⟩),
   ("gingival_margin_distal", ⟨-10, 10, true⟩),
   ("gingival_margin_mid", ⟨-10, 10, true⟩),
   ("gingival_margin_mesial", ⟨-10, 10, true⟩),
   ("probing_depth_distal", ⟨0, 15, true⟩),
   ("probing_depth_mid", ⟨0, 15, true⟩),
   ("probing_depth_mesial", ⟨0, 15, true⟩)]

/-- The value found at a rule field by the untyped access
`(data as any)[field]`: absent (`undefined`/`null`), a number, or a value of
some other runtime type. -/
inductive RVal where
  | absent
  | num (n : Int)
  | nonNum
deriving DecidableEq, Repr

/-- A measurement as the validator sees it: the eight rule fields, each
possibly absent or malformed (the validator reads no other field). -/
structure RawMeasurement where
  mobility : RVal
  furcation : RVal
  gingival_margin_distal : RVal
  gingival_margin_mid : RVal
  gingival_margin_mesial : RVal
  probing_depth_distal : RVal
  probing_depth_mid : RVal
  probing_depth_mesial : RVal
deriving DecidableEq, Repr

/-- `(data as any)[field]` for a rule field name. -/
def getRuleValue (m : RawMeasurement) (f : String) : RVal :=
  match f with
  | "mobility" => m.mobility
  | "furcation" => m.furcation
  | "gingival_margin_distal" => m.gingival_margin_distal
  | "gingival_margin_mid" => m.gingival_margin_mid
  | "gingival_margin_mesial" => m.gingival_margin_mesial
  | "probing_depth_distal" => m.probing_depth_distal
  | "probing_depth_mid" => m.probing_depth_mid
  | "probing_depth_mesial" => m.probing_depth_mesial
  | _ => .absent

/-- The codes one rule contributes: `"{field}_required"` when required and
the value is `undefined`/`null`; `"{field}_range"` when the value is a
number outside `[min, max]`. -/
def ruleViolations (f : String) (r : Rule) (v : RVal) : List String :=
  (if r.required = true ∧ v = RVal.absent then [f ++ "_required"] else []) ++
    (match v with
     | .num n => if n < r.min ∨ r.max < n then [f ++ "_range"] else []
     | _ => [])

/-- `validateToothData`: the union of every rule's violations (the JS `Set`
is modelled as a list read up to membership; the codes a run produces are
pairwise distinct). -/
def validateToothData (m : RawMeasurement) : List String :=
  VALIDATION_RULES.flatMap (fun fr => ruleViolations fr.1 fr.2 (getRuleValue m fr.1))

/-- A well-typed `ToothMeasurement` as the validator receives it: every rule
field holds a number. -/
def toRawMeasurement (m : ToothMeasurement) : RawMeasurement :=
  { mobility := .num m.mobility
    furcation := .num m.furcation
    gingival_margin_distal := .num m.gingival_margin_distal
    gingival_margin_mid := .num m.gingival_margin_mid
    gingival_margin_mesial := .num m.gingival_margin_mesial
    probing_depth_distal := .num m.probing_depth_distal
    probing_depth_mid := .num m.probing_depth_mid
    probing_depth_mesial := .num m.probing_depth_mesial }

/-- The `validationErrors` memo: every `"{tooth}-{surface}"` whose
measurement has at least one violation, mapped to its violation set. -/
def validationErrors (c : Chart) : List (String × List String) :=
  ALL_TEETH.flatMap (fun tooth =>
    [Surface.buccal, Surface.palatal].flatMap (fun s =>
      match List.lookup tooth c with
      | none => []
      | some td =>
        if 0 < (validateToothData (toRawMeasurement (td.surf s))).length then
          [(tooth ++ "-" ++ surfaceName s, validateToothData (toRawMeasurement (td.surf s)))]
        else []))

/-- `isDataValid`: the violation mapping is empty. -/
def isDataValid (c : Chart) : Bool := (validationErrors c).isEmpty

/-- `handleSubmit`: invoke `onSubmit` with the chart only when valid;
otherwise nothing happens (`none`). -/
def handleSubmit (c : Chart) : Option Chart :=
  if isDataValid c then some c else none

/-! ## Numeric input commit (`CompactNumberInput`) -/

def isJsWs (c : Char) : Bool :=
  c == ' ' || c == '\t' || c == '\n' || c == '\r'

def isDigitChar (c : Char) : Bool :=
  48 ≤ c.toNat && c.toNat ≤ 57

def digitVal (c : Char) : Nat := c.toNat - 48

def isHexDigitChar (c : Char) : Bool :=
  isDigitChar c || (97 ≤ c.toNat && c.toNat ≤ 102) || (65 ≤ c.toNat && c.toNat ≤ 70)

def hexVal (c : Char) : Nat :=
  if isDigitChar c then c.toNat - 48
  else if 97 ≤ c.toNat then c.toNat - 87
  else c.toNat - 55

/-- The longest leading run of decimal digits, as a number; none if there is
no leading digit. -/
def parseDecDigits (cs : List Char) : Option Nat :=
  if cs.takeWhile isDigitChar = [] then none
  else some ((cs.takeWhile isDigitChar).foldl (fun a c => 10 * a + digitVal c) 0)

def parseHexDigits (cs : List Char) : Option Nat :=
  if cs.takeWhile isHexDigitChar = [] then none
  else some ((cs.takeWhile isHexDigitChar).foldl (fun a c => 16 * a + hexVal c) 0)

/-- The digit part of `Number.parseInt` with no radix argument: a `0x`/`0X`
prefix selects hexadecimal, anything else decimal; parsing stops at the
first invalid character. -/
def parseIntBody (cs : List Char) : Option Nat :=
  match cs with
  | c0 :: c1 :: rest =>
    if c0 = '0' ∧ (c1 = 'x' ∨ c1 = 'X') then parseHexDigits rest
    else parseDecDigits (c0 :: c1 :: rest)
  | _ => parseDecDigits cs

/-- The sign-and-digits part of `Number.parseInt`, applied after leading
whitespace has been skipped. -/
def jsParseIntAux : List Char → Option Int
  | [] => none
  | c :: rest =>
    if c = '-' then (parseIntBody rest).map (fun n => -(n : Int))
    else if c = '+' then (parseIntBody rest).map (fun n => (n : Int))
    else (parseIntBody (c :: rest)).map (fun n => (n : Int))

/-- `Number.parseInt(s)`: skip leading whitespace, read an optional sign,
then the longest valid digit prefix; `none` models `NaN`. -/
def jsParseInt (s : String) : Option Int :=
  jsParseIntAux (s.data.dropWhile isJsWs)

/-- The committed value of a numeric edit (`CompactNumberInput`'s debounce
effect): `numValue = Number.parseInt(raw) || 0` — `NaN` coerces to `0` —
then `Math.max(min, Math.min(max, numValue))`. -/
def commitNumericValue (mn mx : Int) (raw : String) : Int :=
  max mn (min mx ((jsParseInt raw).getD 0))

/-- Canonical decimal digits of a natural number (fuel-structured so that it
evaluates by reduction; `natDigits` supplies sufficient fuel). -/
def natDigitsAux : Nat → Nat → List Char
  | 0, n => [Char.ofNat (48 + n % 10)]
  | fuel + 1, n =>
    if n < 10 then [Char.ofNat (48 + n)]
    else natDigitsAux fuel (n / 10) ++ [Char.ofNat (48 + n % 10)]

def natDigits (n : Nat) : List Char := natDigitsAux n n

/-- The canonical decimal numeral of an integer. -/
def intNumeral (n : Int) : List Char :=
  if n < 0 then '-' :: natDigits n.natAbs else natDigits n.toNat

/-- `s` is the canonical decimal numeral of `n`. -/
abbrev decimalRepr (n : Int) (s : String) : Prop := s.data = intNumeral n

/-- Modelled from the spec: the claim's committed value — the raw input read
as a real decimal number and floored (`max(min, min(max, floor(v)))`), with
non-numeric input coercing to 0 before clamping.  Used only to compare the
claimed behaviour with the source's `parseInt`-based truncation. -/
def jsNumberFloor (s : String) : Option Int :=
  let cs := s.data.dropWhile isJsWs
  let signed : Bool × List Char :=
    match cs with
    | '-' :: r => (true, r)
    | '+' :: r => (false, r)
    | r => (false, r)
  let intPart := signed.2.takeWhile isDigitChar
  let rest := signed.2.dropWhile isDigitChar
  if intPart = [] then none
  else
    let n : Nat := intPart.foldl (fun a c => 10 * a + digitVal c) 0
    let fracDigits : List Char :=
      match rest with
      | '.' :: fr => fr.takeWhile isDigitChar
      | _ => []
    let hasFrac := fracDigits.any (fun c => decide (digitVal c ≠ 0))
    if signed.1 then (if hasFrac then some (-(n : Int) - 1) else some (-(n : Int)))
    else some (n : Int)

/-- Modelled from the spec: `max(min, min(max, floor(v)))` with non-numeric
input coercing to 0. -/
def claimedFloorCommit (mn mx : Int) (raw : String) : Int :=
  max mn (min mx ((jsNumberFloor raw).getD 0))

/-- The committed value of a notes edit (`CompactTextInput`'s debounce
effect): `value.slice(0, 100)`. -/
def commitTextValue (raw : String) : String := ⟨raw.data.take 100⟩

/-! ## Summary statistics (`summaryStats`) -/

/-- The accumulator object of `summaryStats`. -/
structure SummaryAcc where
  depths : List Int
  margins : List Int
  plaqueCount : Nat
  bleedingCount : Nat
  totalSites : Nat
deriving DecidableEq, Repr

/-- The site records visited by `summaryStats`, in iteration order: for each
catalogue tooth and each surface, the measurement if the tooth exists. -/
def siteRecords (c : Chart) : List ToothMeasurement :=
  ALL_TEETH.flatMap (fun tooth =>
    [Surface.buccal, Surface.palatal].flatMap (fun s =>
      match List.lookup tooth c with
      | none => []
      | some td => [td.surf s]))

def anyPlaque (d : ToothMeasurement) : Bool :=
  d.plaque_on_probing_distal || d.plaque_on_probing_mid || d.plaque_on_probing_mesial

def anyBleeding (d : ToothMeasurement) : Bool :=
  d.bleeding_on_probing_distal || d.bleeding_on_probing_mid || d.bleeding_on_probing_mesial

/-- One step of the `summaryStats` accumulation. -/
def summaryStep (acc : SummaryAcc) (d : ToothMeasurement) : SummaryAcc :=
  { depths := acc.depths ++ [d.probing_depth_distal, d.probing_depth_mid, d.probing_depth_mesial]
    margins :=
      acc.margins ++ [d.gingival_margin_distal, d.gingival_margin_mid, d.gingival_margin_mesial]
    plaqueCount := acc.plaqueCount + (if anyPlaque d then 1 else 0)
    bleedingCount := acc.bleedingCount + (if anyBleeding d then 1 else 0)
    totalSites := acc.totalSites + 1 }

/-- The `stats` object after the `summaryStats` loop. -/
def summaryAcc (c : Chart) : SummaryAcc :=
  (siteRecords c).foldl summaryStep ⟨[], [], 0, 0, 0⟩

/-- `meanDepth` before formatting. -/
def meanDepthQ (c : Chart) : ℚ :=
  if 0 < (summaryAcc c).depths.length then
    ((summaryAcc c).depths.sum : ℚ) / ((summaryAcc c).depths.length : ℚ)
  else 0

/-- `meanMargin` before formatting — the value the component reports as
"Mean Attachment Level". -/
def meanMarginQ (c : Chart) : ℚ :=
  if 0 < (summaryAcc c).margins.length then
    ((summaryAcc c).margins.sum : ℚ) / ((summaryAcc c).margins.length : ℚ)
  else 0

/-- `Number.prototype.toFixed(0)` on an exact nonnegative value: round to
the nearest integer, half away from zero, and print it. -/
def toFixed0 (q : ℚ) : String := ⟨natDigits ⌊q + 1 / 2⌋.toNat⟩

/-- `plaquePercent`: share of sites with any plaque flag, as a whole-number
percentage string. -/
def plaquePercent (c : Chart) : String :=
  if 0 < (summaryAcc c).totalSites then
    toFixed0 (((summaryAcc c).plaqueCount : ℚ) / ((summaryAcc c).totalSites : ℚ) * 100)
  else "0"

/-- `bleedingPercent`. -/
def bleedingPercent (c : Chart) : String :=
  if 0 < (summaryAcc c).totalSites then
    toFixed0 (((summaryAcc c).bleedingCount : ℚ) / ((summaryAcc c).totalSites : ℚ) * 100)
  else "0"

/-- `calculateAttachmentLevel` from `src/lib/chart-utils.ts`: the clinical
attachment level is gingival margin plus probing depth. -/
def calculateAttachmentLevel (gingivalMargin probingDepth : Int) : Int :=
  gingivalMargin + probingDepth

/-- All 192 gingival-margin sub-values of a full chart, in site order. -/
def allMargins (c : Chart) : List Int :=
  (siteRecords c).flatMap
    (fun d => [d.gingival_margin_distal, d.gingival_margin_mid, d.gingival_margin_mesial])

/-- All 192 probing-depth sub-values of a full chart, in site order. -/
def allDepths (c : Chart) : List Int :=
  (siteRecords c).flatMap
    (fun d => [d.probing_depth_distal, d.probing_depth_mid, d.probing_depth_mesial])

/-- The 192 (gingival margin, probing depth) sub-value pairs, in site order. -/
def allMarginDepthPairs (c : Chart) : List (Int × Int) :=
  (siteRecords c).flatMap
    (fun d => [(d.gingival_margin_distal, d.probing_depth_distal),
               (d.gingival_margin_mid, d.probing_depth_mid),
               (d.gingival_margin_mesial, d.probing_depth_mesial)])

/-- A chart that has an entry for every catalogue tooth. -/
abbrev FullChart (c : Chart) : Prop := ∀ t ∈ ALL_TEETH, (List.lookup t c).isSome = true

/-- A full chart whose only nonzero value is tooth 18's buccal distal
probing depth of 1. -/
def onePdChart : Chart :=
  initializeChart
    [("18", (⟨some { probing_depth_distal := some 1 }, none⟩ : PartialToothData))]

set_option maxRecDepth 100000 in
theorem NAVIGATION_MAP_eq_specNavMap : NAVIGATION_MAP = specNavMap := by rfl

/-! ### Key injectivity and lookup characterization -/

theorem string_eq_of_data_eq {s t : String} (h : s.data = t.data) : s = t := by
  cases s; cases t; exact congrArg String.mk h

theorem data_append (s t : String) : (s ++ t).data = s.data ++ t.data :=
  String.data_append s t

theorem tooth_length_two : ∀ i < 32, (ALL_TEETH.getD i "").length = 2 := by decide

theorem ALL_TEETH_nodup : ALL_TEETH.Nodup := by decide

theorem navFields_nodup : navFields.Nodup := by decide

theorem ALL_TEETH_length : ALL_TEETH.length = 32 := by decide

theorem navFields_length : navFields.length = 16 := by decide

theorem cellKey_data (i : Nat) (s : String) (j : Nat) :
    (cellKey i s j).data =
      (ALL_TEETH.getD i "").data ++ ('-' :: (s.data ++ ('-' :: (navFields.getD j "").data))) := by
  simp [cellKey, data_append]

/-- Cell keys are injective on the grid: distinct (tooth, surface, field)
triples give distinct key strings. -/
theorem cellKey_inj {i i' j j' : Nat} {s s' : String}
    (hi : i < 32) (hi' : i' < 32) (hj : j < 16) (hj' : j' < 16)
    (hs : s ∈ SURFACES) (hs' : s' ∈ SURFACES)
    (h : cellKey i s j = cellKey i' s' j') : i = i' ∧ s = s' ∧ j = j' := by
  have hd := congrArg String.data h
  rw [cellKey_data, cellKey_data] at hd
  have hlen : ((ALL_TEETH.getD i "").data).length = ((ALL_TEETH.getD i' "").data).length := by
    have h1 := tooth_length_two i hi
    have h2 := tooth_length_two i' hi'
    simp only [String.length] at h1 h2
    omega
  obtain ⟨hT, hrest⟩ := List.append_inj hd hlen
  have htooth : ALL_TEETH.getD i "" = ALL_TEETH.getD i' "" :=
    string_eq_of_data_eq hT
  have hii : i = i' := by
    rw [List.getD_eq_getElem ALL_TEETH "" (by rw [ALL_TEETH_length]; exact hi),
        List.getD_eq_getElem ALL_TEETH "" (by rw [ALL_TEETH_length]; exact hi')] at htooth
    exact ALL_TEETH_nodup.getElem_inj_iff.mp htooth
  have hrest' : s.data ++ ('-' :: (navFields.getD j "").data) =
      s'.data ++ ('-' :: (navFields.getD j' "").data) := by
    injection hrest
  have hss : s = s' := by
    rcases List.mem_pair.mp hs with rfl | rfl <;>
      rcases List.mem_pair.mp hs' with rfl | rfl <;>
        first
          | rfl
          | (exfalso
             have hh := congrArg (fun l => l.head?) hrest'
             simp at hh)
  subst hss
  have hfield : navFields.getD j "" = navFields.getD j' "" := by
    apply string_eq_of_data_eq
    have := List.append_cancel_left hrest'
    injection this
  have hjj : j = j' := by
    rw [List.getD_eq_getElem navFields "" (by rw [navFields_length]; exact hj),
        List.getD_eq_getElem navFields "" (by rw [navFields_length]; exact hj')] at hfield
    exact navFields_nodup.getElem_inj_iff.mp hfield
  exact ⟨hii, rfl, hjj⟩

theorem navTriples_nodup : navTriples.Nodup := by
  apply List.Nodup.product (List.nodup_range 32)
  exact List.Nodup.product (by decide) (List.nodup_range 16)

theorem mem_navTriples {i j : Nat} {s : String} :
    (i, s, j) ∈ navTriples ↔ i < 32 ∧ s ∈ SURFACES ∧ j < 16 := by
  simp [navTriples, List.pair_mem_product, List.mem_range]

theorem specNavMap_keys_nodup : (specNavMap.map Prod.fst).Nodup := by
  rw [specNavMap, List.map_map]
  apply List.Nodup.map_on _ navTriples_nodup
  rintro ⟨i, s, j⟩ hx ⟨i', s', j'⟩ hy hf
  obtain ⟨hi, hs, hj⟩ := mem_navTriples.mp hx
  obtain ⟨hi', hs', hj'⟩ := mem_navTriples.mp hy
  obtain ⟨h1, h2, h3⟩ := cellKey_inj hi hi' hj hj' hs hs' hf
  simp_all

/-- First-match lookup in an association list with distinct keys finds the
unique entry. -/
theorem lookup_eq_some_of_nodup {β : Type} {l : List (String × β)} {k : String} {v : β}
    (hnd : (l.map Prod.fst).Nodup) (hm : (k, v) ∈ l) : l.lookup k = some v := by
  induction l with
  | nil => cases hm
  | cons a t ih =>
    obtain ⟨ka, va⟩ := a
    by_cases hk : k = ka
    · subst hk
      have hv : v = va := by
        rcases List.mem_cons.mp hm with heq | hmt
        · exact congrArg Prod.snd heq
        · exfalso
          have hmem : k ∈ t.map Prod.fst := List.mem_map.mpr ⟨(k, v), hmt, rfl⟩
          simp only [List.map_cons, List.nodup_cons] at hnd
          exact hnd.1 hmem
      subst hv
      simp [List.lookup]
    · have hb : (k == ka) = false := beq_false_of_ne hk
      rcases List.mem_cons.mp hm with heq | hmt
      · exact absurd (congrArg Prod.fst heq) hk
      · simp only [List.lookup, hb]
        exact ih (by simp only [List.map_cons, List.nodup_cons] at hnd; exact hnd.2) hmt

/-- Characterization of `NAVIGATION_MAP` lookups at grid cells. -/
theorem nav_lookup {i j : Nat} {s : String} (hi : i < 32) (hj : j < 16) (hs : s ∈ SURFACES) :
    NAVIGATION_MAP.lookup (cellKey i s j) = some (navEntryAt i s j) := by
  rw [NAVIGATION_MAP_eq_specNavMap]
  apply lookup_eq_some_of_nodup specNavMap_keys_nodup
  rw [specNavMap]
  exact List.mem_map.mpr ⟨(i, s, j), mem_navTriples.mpr ⟨hi, hs, hj⟩, rfl⟩

theorem nav_index_prev {i : Nat} (h : i < 32) : (i + 31) % 32 = if i = 0 then 31 else i - 1 := by
  rcases Nat.eq_zero_or_pos i with h0 | h0
  · subst h0; decide
  · rw [if_neg (Nat.pos_iff_ne_zero.mp h0)]; omega

theorem nav_index_up {j : Nat} (h : j < 16) : (j + 15) % 16 = if j = 0 then 15 else j - 1 := by
  rcases Nat.eq_zero_or_pos j with h0 | h0
  · subst h0; decide
  · rw [if_neg (Nat.pos_iff_ne_zero.mp h0)]; omega

/-- **C1.** For every cell (tooth-index `i`, surface `s`, field-index `j`),
navigation resolves `next` to tooth-index `(i+1) % 32` (same surface and
field), `prev` to tooth-index `(i-1+32) % 32` (written `(i+31) % 32`, equal
over the range), `down` to field-index `(j+1) % 16` and `up` to field-index
`(j-1+16) % 16` (written `(j+15) % 16`), on the same tooth and surface; and in
particular `navigate "18-buccal-mobility" "prev" = "41-buccal-mobility"` and
`navigate "18-buccal-notes" "down" = "18-buccal-mobility"`. -/
theorem navigation_map_modular_wrap :
    (∀ i j : Nat, ∀ s : String, i < 32 → j < 16 → s ∈ SURFACES →
      navigate (cellKey i s j) "next" = some (cellKey ((i + 1) % 32) s j) ∧
      navigate (cellKey i s j) "prev" = some (cellKey ((i + 31) % 32) s j) ∧
      navigate (cellKey i s j) "down" = some (cellKey i s ((j + 1) % 16)) ∧
      navigate (cellKey i s j) "up" = some (cellKey i s ((j + 15) % 16))) ∧
    navigate "18-buccal-mobility" "prev" = some "41-buccal-mobility" ∧
    navigate "18-buccal-notes" "down" = some "18-buccal-mobility" := by
  refine ⟨fun i j s hi hj hs => ?_, by decide, by decide⟩
  have hl := nav_lookup hi hj hs
  refine ⟨?_, ?_, ?_, ?_⟩ <;>
    simp only [navigate, hl, navEntryAt, nav_index_prev hi, nav_index_up hj]

/-- Witness for C1 at a concrete cell: tooth-index 0 (`"18"`), surface
`"buccal"`, field-index 0 (`"mobility"`). -/
theorem navigation_map_modular_wrap_witness :
    navigate (cellKey 0 "buccal" 0) "next" = some (cellKey 1 "buccal" 0) ∧
    navigate "18-buccal-mobility" "prev" = some "41-buccal-mobility" := by
  refine ⟨?_, navigation_map_modular_wrap.2.1⟩
  have h := (navigation_map_modular_wrap.1 0 0 "buccal" (by decide) (by decide)
    (by decide)).1
  simpa using h

/-- **C2.** Every entry of the navigation map is a grid cell
`cellKey i s j`, and all four of its targets keep the same surface `s`;
`up`/`down` keep the same tooth index and `next`/`prev` keep the same field
index.  Moreover buccal cell keys and palatal cell keys are disjoint sets of
strings, so no navigation step starting from a buccal cell ever resolves to a
palatal cell. -/
theorem navigation_surface_isolation :
    (∀ key e, (key, e) ∈ NAVIGATION_MAP →
      ∃ i s j, i < 32 ∧ s ∈ SURFACES ∧ j < 16 ∧ key = cellKey i s j ∧
        e.next = cellKey ((i + 1) % 32) s j ∧
        e.prev = cellKey ((i + 31) % 32) s j ∧
        e.up = cellKey i s ((j + 15) % 16) ∧
        e.down = cellKey i s ((j + 1) % 16)) ∧
    (∀ i j i' j' : Nat, i < 32 → j < 16 → i' < 32 → j' < 16 →
      cellKey i "buccal" j ≠ cellKey i' "palatal" j') := by
  constructor
  · intro key e hm
    rw [NAVIGATION_MAP_eq_specNavMap, specNavMap] at hm
    obtain ⟨⟨i, s, j⟩, ht, hpair⟩ := List.mem_map.mp hm
    obtain ⟨hi, hs, hj⟩ := mem_navTriples.mp ht
    obtain ⟨hkey, hentry⟩ := Prod.mk.injEq .. ▸ hpair
    refine ⟨i, s, j, hi, hs, hj, hkey.symm, ?_⟩
    rw [← hentry]
    simp [navEntryAt, nav_index_prev hi, nav_index_up hj]
  · intro i j i' j' hi hj hi' hj' h
    have := cellKey_inj hi hi' hj hj' (by decide) (by decide) h
    simp at this

/-- Witness for C2 at the first entry of the map. -/
theorem navigation_surface_isolation_witness :
    (∃ i s j, i < 32 ∧ s ∈ SURFACES ∧ j < 16 ∧
      "18-buccal-mobility" = cellKey i s j ∧
      NavEntry.next ⟨"17-buccal-mobility", "41-buccal-mobility",
        "18-buccal-notes", "18-buccal-implant"⟩ = cellKey ((i + 1) % 32) s j ∧
      NavEntry.prev ⟨"17-buccal-mobility", "41-buccal-mobility",
        "18-buccal-notes", "18-buccal-implant"⟩ = cellKey ((i + 31) % 32) s j ∧
      NavEntry.up ⟨"17-buccal-mobility", "41-buccal-mobility",
        "18-buccal-notes", "18-buccal-implant"⟩ = cellKey i s ((j + 15) % 16) ∧
      NavEntry.down ⟨"17-buccal-mobility", "41-buccal-mobility",
        "18-buccal-notes", "18-buccal-implant"⟩ = cellKey i s ((j + 1) % 16)) ∧
    cellKey 0 "buccal" 0 ≠ cellKey 0 "palatal" 0 :=
  ⟨navigation_surface_isolation.1 "18-buccal-mobility"
      ⟨"17-buccal-mobility", "41-buccal-mobility", "18-buccal-notes", "18-buccal-implant"⟩
      (by decide),
   navigation_surface_isolation.2 0 0 0 0 (by decide) (by decide) (by decide) (by decide)⟩

/-! ### Chart initialization (default/merge builder) -/

theorem lookup_map_self {β : Type} {l : List String} (hnd : l.Nodup) {t : String}
    (ht : t ∈ l) (f : String → β) :
    (l.map (fun x => (x, f x))).lookup t = some (f t) := by
  apply lookup_eq_some_of_nodup
  · rw [List.map_map]
    have he : (Prod.fst ∘ fun x : String => (x, f x)) = fun x => x := rfl
    rw [he]
    simpa using hnd
  · exact List.mem_map.mpr ⟨t, ht, rfl⟩

theorem getField_merge (d : ToothMeasurement) (p : PartialMeasurement) (f : MField) :
    getField (mergeMeasurement d p) f = (getPartialField p f).getD (getField d f) := by
  cases f <;> simp [getField, mergeMeasurement, getPartialField, Option.getD_map]

theorem initializeChart_lookup (init : InitialValues) {t : String} (ht : t ∈ ALL_TEETH) :
    (initializeChart init).lookup t =
      some ⟨mergeMeasurement createDefaultMeasurement
              ((List.lookup t init |>.bind PartialToothData.buccal).getD emptyPartial),
            mergeMeasurement createDefaultMeasurement
              ((List.lookup t init |>.bind PartialToothData.palatal).getD emptyPartial)⟩ := by
  simp only [initializeChart]
  exact lookup_map_self ALL_TEETH_nodup ht _

/-- **C3.** Chart initialization yields, for every catalogue tooth and both
surfaces, the field-wise merge of the canonical default measurement with the
caller's partial override for that tooth and surface: override fields take
precedence field-by-field, absent fields keep the default; with no initial
values at all every tooth holds exactly the canonical default on both
surfaces. -/
theorem chart_initialization_merge :
    (∀ (init : InitialValues) (t : String), t ∈ ALL_TEETH →
      ∃ td : ToothData, (initializeChart init).lookup t = some td ∧
        ∀ (s : Surface) (f : MField),
          getField (td.surf s) f =
            (getPartialField
                ((List.lookup t init |>.bind (fun p => p.surf s)).getD emptyPartial) f).getD
              (getField createDefaultMeasurement f)) ∧
    (∀ t ∈ ALL_TEETH, (initializeChart ([] : InitialValues)).lookup t =
      some ⟨createDefaultMeasurement, createDefaultMeasurement⟩) := by
  constructor
  · intro init t ht
    refine ⟨_, initializeChart_lookup init ht, ?_⟩
    intro s f
    cases s <;> simp [ToothData.surf, PartialToothData.surf, getField_merge]
  · intro t ht
    rw [initializeChart_lookup ([] : InitialValues) ht]
    rfl

/-- Witness for C3: overriding tooth 18's buccal mobility to 2 yields
exactly that one change; the empty initializer yields the default. -/
theorem chart_initialization_merge_witness :
    (initializeChart
        [("18", (⟨some { mobility := some 2 }, none⟩ : PartialToothData))]).lookup "18" =
      some ⟨{ createDefaultMeasurement with mobility := 2 }, createDefaultMeasurement⟩ ∧
    (initializeChart ([] : InitialValues)).lookup "18" =
      some ⟨createDefaultMeasurement, createDefaultMeasurement⟩ :=
  ⟨by decide, chart_initialization_merge.2 "18" (by decide)⟩

/-! ### Immutable update: frame and verbatim storage -/

theorem lookup_cons_self {β : Type} (k : String) (v : β) (l : List (String × β)) :
    ((k, v) :: l).lookup k = some v := by
  simp [List.lookup]

theorem lookup_cons_ne {β : Type} {a k : String} (h : a ≠ k) (v : β) (l : List (String × β)) :
    ((k, v) :: l).lookup a = l.lookup a := by
  simp [List.lookup, beq_false_of_ne h]

theorem lookup_map_replace {β : Type} {c : List (String × β)} {tooth t' : String} {td : β}
    (h : t' ≠ tooth) :
    (c.map (fun e => if e.1 = tooth then (tooth, td) else e)).lookup t' = c.lookup t' := by
  induction c with
  | nil => rfl
  | cons a rest ih =>
    obtain ⟨k, w⟩ := a
    simp only [List.map_cons]
    by_cases hk : k = tooth
    · rw [if_pos (show (k, w).1 = tooth from hk)]
      rw [lookup_cons_ne h td, lookup_cons_ne (fun hh => h (hh.trans hk)) w rest]
      exact ih
    · rw [if_neg (show ¬(k, w).1 = tooth from hk)]
      by_cases ht : t' = k
      · subst ht; rw [lookup_cons_self, lookup_cons_self]
      · rw [lookup_cons_ne ht w, lookup_cons_ne ht w rest]
        exact ih

theorem lookup_map_replace_self {β : Type} {c : List (String × β)} {tooth : String} {td : β}
    (h : (c.lookup tooth).isSome = true) :
    (c.map (fun e => if e.1 = tooth then (tooth, td) else e)).lookup tooth = some td := by
  induction c with
  | nil => simp [List.lookup] at h
  | cons a rest ih =>
    obtain ⟨k, w⟩ := a
    simp only [List.map_cons]
    by_cases hk : k = tooth
    · rw [if_pos (show (k, w).1 = tooth from hk), lookup_cons_self]
    · rw [if_neg (show ¬(k, w).1 = tooth from hk)]
      have hne : tooth ≠ k := fun hh => hk hh.symm
      rw [lookup_cons_ne hne w]
      rw [lookup_cons_ne hne w rest] at h
      exact ih h

theorem lookup_append_single_ne {β : Type} {c : List (String × β)} {k t' : String} {td : β}
    (h : t' ≠ k) :
    (c ++ [(k, td)]).lookup t' = c.lookup t' := by
  induction c with
  | nil => rw [List.nil_append, lookup_cons_ne h td]
  | cons a rest ih =>
    obtain ⟨ka, w⟩ := a
    rw [List.cons_append]
    by_cases ht : t' = ka
    · subst ht; rw [lookup_cons_self, lookup_cons_self]
    · rw [lookup_cons_ne ht w, lookup_cons_ne ht w rest]
      exact ih

theorem lookup_append_single_self {β : Type} {c : List (String × β)} {k : String} {td : β}
    (h : c.lookup k = none) :
    (c ++ [(k, td)]).lookup k = some td := by
  induction c with
  | nil => rw [List.nil_append, lookup_cons_self]
  | cons a rest ih =>
    obtain ⟨ka, w⟩ := a
    have hne : k ≠ ka := by
      rintro rfl
      rw [lookup_cons_self] at h
      cases h
    rw [lookup_cons_ne hne w rest] at h
    rw [List.cons_append, lookup_cons_ne hne w]
    exact ih h

theorem lookup_setChartEntry_self (c : Chart) (tooth : String) (td : ToothData) :
    (setChartEntry c tooth td).lookup tooth = some td := by
  unfold setChartEntry
  by_cases hp : (List.lookup tooth c).isSome = true
  · rw [if_pos hp]
    exact lookup_map_replace_self hp
  · rw [if_neg hp]
    exact lookup_append_single_self (Option.not_isSome_iff_eq_none.mp hp)

theorem lookup_setChartEntry_ne (c : Chart) (tooth : String) (td : ToothData) {t' : String}
    (h : t' ≠ tooth) :
    (setChartEntry c tooth td).lookup t' = c.lookup t' := by
  unfold setChartEntry
  by_cases hp : (List.lookup tooth c).isSome = true
  · rw [if_pos hp]
    exact lookup_map_replace h
  · rw [if_neg hp]
    exact lookup_append_single_ne h

theorem getField_setField_ne (m : ToothMeasurement) (f g : MField) (v : FieldVal)
    (hg : g ≠ f) : getField (setField m f v) g = getField m g := by
  cases f <;> cases v <;> cases g <;> first | rfl | exact absurd rfl hg

theorem getField_setField_self (m : ToothMeasurement) (f : MField) (v : FieldVal)
    (h : matchesKind f v) : getField (setField m f v) f = v := by
  cases f <;> cases v <;>
    first
      | rfl
      | simp [matchesKind, MField.kind, FieldVal.kind] at h

theorem surf_setSurf_self (td : ToothData) (s : Surface) (m : ToothMeasurement) :
    (td.setSurf s m).surf s = m := by
  cases s <;> rfl

theorem surf_setSurf_other (td : ToothData) (s : Surface) (m : ToothMeasurement) :
    (td.setSurf s m).surf s.other = td.surf s.other := by
  cases s <;> rfl

/-- **C7.** `handleUpdate` is a frame-preserving update: the entry of every
other tooth is returned unchanged (the very association-list entries of the
input chart — the model\'s rendering of referential identity); on the
targeted tooth only the targeted surface\'s targeted field is replaced: the
other surface is untouched and so is every other field of the targeted
measurement. -/
theorem update_frame :
    ∀ (c : Chart) (tooth : String) (s : Surface) (f : MField) (v : FieldVal),
      (∀ t', t' ≠ tooth → (handleUpdate c tooth s f v).lookup t' = c.lookup t') ∧
      (∀ td, c.lookup tooth = some td →
        (handleUpdate c tooth s f v).lookup tooth =
          some (td.setSurf s (setField (td.surf s) f v)) ∧
        (td.setSurf s (setField (td.surf s) f v)).surf s.other = td.surf s.other ∧
        ∀ g, g ≠ f → getField (setField (td.surf s) f v) g = getField (td.surf s) g) := by
  intro c tooth s f v
  constructor
  · intro t' ht'
    exact lookup_setChartEntry_ne c tooth _ ht'
  · intro td htd
    have hbase :
        (List.lookup tooth c).getD ⟨createDefaultMeasurement, createDefaultMeasurement⟩ = td := by
      rw [htd]; rfl
    refine ⟨?_, surf_setSurf_other td s _, fun g hg => getField_setField_ne _ f g v hg⟩
    show (setChartEntry c tooth
      (((List.lookup tooth c).getD ⟨createDefaultMeasurement, createDefaultMeasurement⟩).setSurf s
        (setField
          (((List.lookup tooth c).getD
              ⟨createDefaultMeasurement, createDefaultMeasurement⟩).surf s) f v))).lookup tooth =
      some (td.setSurf s (setField (td.surf s) f v))
    rw [hbase]
    exact lookup_setChartEntry_self c tooth _

/-- Witness for C7 on a concrete chart: updating tooth 18\'s buccal mobility
leaves tooth 17\'s entry untouched and rewrites tooth 18\'s entry as stated. -/
theorem update_frame_witness :
    (handleUpdate (initializeChart ([] : InitialValues)) "18" Surface.buccal MField.mobility
        (FieldVal.num 2)).lookup "17" = (initializeChart ([] : InitialValues)).lookup "17" ∧
    (handleUpdate (initializeChart ([] : InitialValues)) "18" Surface.buccal MField.mobility
        (FieldVal.num 2)).lookup "18" =
      some ((⟨createDefaultMeasurement, createDefaultMeasurement⟩ : ToothData).setSurf
        Surface.buccal
        (setField
          ((⟨createDefaultMeasurement, createDefaultMeasurement⟩ : ToothData).surf Surface.buccal)
          MField.mobility (FieldVal.num 2))) :=
  ⟨(update_frame (initializeChart ([] : InitialValues)) "18" Surface.buccal MField.mobility
      (FieldVal.num 2)).1 "17" (by decide),
   ((update_frame (initializeChart ([] : InitialValues)) "18" Surface.buccal MField.mobility
      (FieldVal.num 2)).2 ⟨createDefaultMeasurement, createDefaultMeasurement⟩ (by decide)).1⟩

/-- **C10.** The core update performs no clamping, truncation or
validation: for any value of the field\'s declared kind — including values
outside the field\'s `[min, max]` domain and over-length notes strings —
`handleUpdate` stores the value exactly as given. -/
theorem update_stores_value_verbatim :
    ∀ (c : Chart) (tooth : String) (s : Surface) (f : MField) (v : FieldVal),
      matchesKind f v →
      ∃ td' : ToothData, (handleUpdate c tooth s f v).lookup tooth = some td' ∧
        getField (td'.surf s) f = v := by
  intro c tooth s f v hkind
  refine ⟨_, lookup_setChartEntry_self c tooth
    (((List.lookup tooth c).getD ⟨createDefaultMeasurement, createDefaultMeasurement⟩).setSurf s
      (setField
        (((List.lookup tooth c).getD
            ⟨createDefaultMeasurement, createDefaultMeasurement⟩).surf s) f v)), ?_⟩
  rw [surf_setSurf_self]
  exact getField_setField_self _ f v hkind

/-- Witness for C10: a probing depth of 99 (far outside `[0, 15]`) is stored
verbatim by the update. -/
theorem update_stores_value_verbatim_witness :
    matchesKind MField.probing_depth_distal (FieldVal.num 99) ∧
    ∃ td' : ToothData,
      (handleUpdate (initializeChart ([] : InitialValues)) "18" Surface.buccal
          MField.probing_depth_distal (FieldVal.num 99)).lookup "18" = some td' ∧
      getField (td'.surf Surface.buccal) MField.probing_depth_distal = FieldVal.num 99 :=
  ⟨rfl,
   update_stores_value_verbatim (initializeChart ([] : InitialValues)) "18" Surface.buccal
     MField.probing_depth_distal (FieldVal.num 99) rfl⟩

/-! ### Validation engine -/

theorem mem_ruleViolations {f : String} {r : Rule} {v : RVal} {c : String} :
    c ∈ ruleViolations f r v ↔
      (r.required = true ∧ v = RVal.absent ∧ c = f ++ "_required") ∨
      (∃ n, v = RVal.num n ∧ (n < r.min ∨ r.max < n) ∧ c = f ++ "_range") := by
  cases v with
  | absent => by_cases hr : r.required = true <;> simp [ruleViolations, hr]
  | num n => by_cases hn : n < r.min ∨ r.max < n <;> simp [ruleViolations, hn]
  | nonNum => simp [ruleViolations]

/-- **C5.** The violation set of a measurement consists exactly of:
`"{field}_required"` for each rule field whose rule is required and whose
value is absent, and `"{field}_range"` for each rule field whose value is a
number strictly outside the rule's `[min, max]`.  No other code ever
appears — in particular boolean and text fields (which carry no rule)
contribute nothing. -/
theorem validate_measurement_codes :
    ∀ (m : RawMeasurement) (c : String),
      c ∈ validateToothData m ↔
        ∃ f r, (f, r) ∈ VALIDATION_RULES ∧
          ((r.required = true ∧ getRuleValue m f = RVal.absent ∧ c = f ++ "_required") ∨
           (∃ n, getRuleValue m f = RVal.num n ∧ (n < r.min ∨ r.max < n) ∧
             c = f ++ "_range")) := by
  intro m c
  rw [validateToothData, List.mem_flatMap]
  constructor
  · rintro ⟨⟨f, r⟩, hfr, hc⟩
    exact ⟨f, r, hfr, mem_ruleViolations.mp hc⟩
  · rintro ⟨f, r, hfr, h⟩
    exact ⟨(f, r), hfr, mem_ruleViolations.mpr h⟩

/-- Witness for C5: a mobility of 5 trips `"mobility_range"`, an absent
mobility trips `"mobility_required"`. -/
theorem validate_measurement_codes_witness :
    "mobility_range" ∈ validateToothData
      ⟨RVal.num 5, RVal.num 0, RVal.num 0, RVal.num 0, RVal.num 0, RVal.num 0, RVal.num 0,
        RVal.num 0⟩ ∧
    "mobility_required" ∈ validateToothData
      ⟨RVal.absent, RVal.num 0, RVal.num 0, RVal.num 0, RVal.num 0, RVal.num 0, RVal.num 0,
        RVal.num 0⟩ :=
  ⟨(validate_measurement_codes _ _).mpr
     ⟨"mobility", ⟨0, 3, true⟩, by decide, Or.inr ⟨5, rfl, by decide, rfl⟩⟩,
   (validate_measurement_codes _ _).mpr
     ⟨"mobility", ⟨0, 3, true⟩, by decide, Or.inl ⟨rfl, rfl, rfl⟩⟩⟩

theorem mem_validationErrors {chart : Chart} {k : String} {es : List String} :
    (k, es) ∈ validationErrors chart ↔
      ∃ t td s, t ∈ ALL_TEETH ∧ List.lookup t chart = some td ∧
        k = t ++ "-" ++ surfaceName s ∧
        es = validateToothData (toRawMeasurement (td.surf s)) ∧ es ≠ [] := by
  rw [validationErrors, List.mem_flatMap]
  constructor
  · rintro ⟨t, ht, hmem⟩
    rw [List.mem_flatMap] at hmem
    obtain ⟨s, _, hmem2⟩ := hmem
    split at hmem2
    · cases hmem2
    · rename_i td hlk
      split at hmem2
      · rename_i hne
        have heq := List.mem_singleton.mp hmem2
        have hk : k = t ++ "-" ++ surfaceName s := congrArg Prod.fst heq
        have hes : es = validateToothData (toRawMeasurement (td.surf s)) :=
          congrArg Prod.snd heq
        exact ⟨t, td, s, ht, hlk, hk, hes, hes ▸ List.length_pos.mp hne⟩
      · cases hmem2
  · rintro ⟨t, td, s, ht, hlk, hk, hes, hne⟩
    refine ⟨t, ht, ?_⟩
    rw [List.mem_flatMap]
    refine ⟨s, by cases s <;> simp, ?_⟩
    have hred : (match List.lookup t chart with
        | none => ([] : List (String × List String))
        | some td =>
          if 0 < (validateToothData (toRawMeasurement (td.surf s))).length then
            [(t ++ "-" ++ surfaceName s, validateToothData (toRawMeasurement (td.surf s)))]
          else []) =
        (if 0 < (validateToothData (toRawMeasurement (td.surf s))).length then
          [(t ++ "-" ++ surfaceName s, validateToothData (toRawMeasurement (td.surf s)))]
        else []) := by rw [hlk]
    rw [hred, if_pos (List.length_pos.mpr (fun hnil => hne (hes.trans hnil)))]
    subst hk hes
    exact List.mem_singleton.mpr rfl

/-- **C6.** The chart-level validation mapping contains exactly the
`"{tooth}-{surface}"` keys whose measurement has at least one violation,
every stored violation set is non-empty, a chart whose every measurement
validates cleanly yields the empty mapping, and submission fires (passing
the chart to `onSubmit`) iff the mapping is empty — otherwise it is a
no-op. -/
theorem chart_validation_gates_submission :
    ∀ chart : Chart,
      (∀ k es, (k, es) ∈ validationErrors chart → es ≠ []) ∧
      (∀ k es, (k, es) ∈ validationErrors chart ↔
        ∃ t td s, t ∈ ALL_TEETH ∧ List.lookup t chart = some td ∧
          k = t ++ "-" ++ surfaceName s ∧
          es = validateToothData (toRawMeasurement (td.surf s)) ∧ es ≠ []) ∧
      ((∀ t td, List.lookup t chart = some td → ∀ s : Surface,
          validateToothData (toRawMeasurement (td.surf s)) = []) →
        validationErrors chart = []) ∧
      (handleSubmit chart = some chart ↔ validationErrors chart = []) ∧
      (validationErrors chart ≠ [] → handleSubmit chart = none) := by
  intro chart
  refine ⟨?_, fun k es => mem_validationErrors, ?_, ?_, ?_⟩
  · intro k es hm
    obtain ⟨_, _, _, _, _, _, _, hne⟩ := mem_validationErrors.mp hm
    exact hne
  · intro hall
    rw [List.eq_nil_iff_forall_not_mem]
    rintro ⟨k, es⟩ hm
    obtain ⟨t, td, s, ht, hlk, hk, hes, hne⟩ := mem_validationErrors.mp hm
    exact hne (hes.trans (hall t td hlk s))
  · rw [handleSubmit, isDataValid]
    constructor
    · intro h
      by_cases hv : (validationErrors chart).isEmpty = true
      · exact List.isEmpty_iff.mp hv
      · rw [if_neg hv] at h
        cases h
    · intro h
      rw [if_pos (List.isEmpty_iff.mpr h)]
  · intro hne
    rw [handleSubmit, isDataValid, if_neg]
    intro hv
    exact hne (List.isEmpty_iff.mp hv)

/-- Witness for C6: the all-default chart submits (the callback receives
the chart); a chart initialized with a probing depth of 20 does not. -/
theorem chart_validation_gates_submission_witness :
    handleSubmit (initializeChart ([] : InitialValues)) =
      some (initializeChart ([] : InitialValues)) ∧
    handleSubmit (initializeChart
      [("18", (⟨some { probing_depth_distal := some 20 }, none⟩ : PartialToothData))]) =
      none :=
  ⟨(chart_validation_gates_submission (initializeChart ([] : InitialValues))).2.2.2.1.mpr
     (by decide),
   (chart_validation_gates_submission _).2.2.2.2 (by decide)⟩

/-! ### Summary statistics -/

theorem summary_foldl (l : List ToothMeasurement) (a : SummaryAcc) :
    l.foldl summaryStep a =
      ⟨a.depths ++ l.flatMap
         (fun d => [d.probing_depth_distal, d.probing_depth_mid, d.probing_depth_mesial]),
       a.margins ++ l.flatMap
         (fun d => [d.gingival_margin_distal, d.gingival_margin_mid, d.gingival_margin_mesial]),
       a.plaqueCount + l.countP anyPlaque,
       a.bleedingCount + l.countP anyBleeding,
       a.totalSites + l.length⟩ := by
  induction l generalizing a with
  | nil => simp
  | cons d rest ih =>
    rw [List.foldl_cons, ih]
    simp only [summaryStep, List.flatMap_cons, List.countP_cons, List.length_cons,
      SummaryAcc.mk.injEq]
    refine ⟨by simp, by simp, by ring, by ring, by ring⟩

theorem siteRecords_of_teeth (ts : List String) (chart : Chart)
    (h : ∀ t ∈ ts, (List.lookup t chart).isSome = true) :
    (ts.flatMap (fun tooth =>
      [Surface.buccal, Surface.palatal].flatMap (fun s =>
        match List.lookup tooth chart with
        | none => []
        | some td => [td.surf s]))).length = 2 * ts.length := by
  induction ts with
  | nil => rfl
  | cons t rest ih =>
    rw [List.flatMap_cons, List.length_append,
      ih (fun x hx => h x (List.mem_cons_of_mem _ hx))]
    obtain ⟨td, htd⟩ := Option.isSome_iff_exists.mp (h t (List.mem_cons_self t rest))
    rw [htd]
    simp [List.length_cons]
    ring

theorem siteRecords_length_full {chart : Chart} (h : FullChart chart) :
    (siteRecords chart).length = 64 :=
  (siteRecords_of_teeth ALL_TEETH chart h).trans (by rw [ALL_TEETH_length])

theorem summaryAcc_margins (chart : Chart) :
    (summaryAcc chart).margins = allMargins chart := by
  rw [summaryAcc, summary_foldl]
  simp [allMargins]

theorem summaryAcc_plaque (chart : Chart) :
    (summaryAcc chart).plaqueCount = (siteRecords chart).countP anyPlaque := by
  rw [summaryAcc, summary_foldl]
  simp

theorem summaryAcc_bleeding (chart : Chart) :
    (summaryAcc chart).bleedingCount = (siteRecords chart).countP anyBleeding := by
  rw [summaryAcc, summary_foldl]
  simp

theorem summaryAcc_totalSites (chart : Chart) :
    (summaryAcc chart).totalSites = (siteRecords chart).length := by
  rw [summaryAcc, summary_foldl]
  simp

theorem length_flatMap_three (f g h : ToothMeasurement → Int) (l : List ToothMeasurement) :
    (l.flatMap (fun d => [f d, g d, h d])).length = 3 * l.length := by
  induction l with
  | nil => rfl
  | cons d rest ih =>
    rw [List.flatMap_cons, List.length_append, ih]
    simp [List.length_cons]
    ring

theorem allMargins_length_full {chart : Chart} (h : FullChart chart) :
    (allMargins chart).length = 192 := by
  rw [allMargins, length_flatMap_three, siteRecords_length_full h]

set_option maxRecDepth 40000 in
/-- **C8.** The statistic the component reports as "Mean Attachment Level"
is the mean of the 192 gingival-margin sub-values alone (all three
distal/mid/mesial values over all 64 tooth-surface records); it is not the
mean of `calculateAttachmentLevel` (gingival margin + probing depth): a
chart exists on which the two disagree. -/
theorem summary_attachment_level_is_margin_mean :
    (∀ chart : Chart, FullChart chart →
      (allMargins chart).length = 192 ∧
      meanMarginQ chart = ((allMargins chart).sum : ℚ) / 192) ∧
    (∃ chart : Chart, FullChart chart ∧
      meanMarginQ chart ≠
        (((allMarginDepthPairs chart).map
            (fun p => calculateAttachmentLevel p.1 p.2)).sum : ℚ) / 192) := by
  constructor
  · intro chart hfull
    have hlen : (allMargins chart).length = 192 := allMargins_length_full hfull
    refine ⟨hlen, ?_⟩
    rw [meanMarginQ, summaryAcc_margins, hlen]
    rw [if_pos (by norm_num)]
    norm_num
  · refine ⟨onePdChart, by decide, ?_⟩
    have hs : (allMargins onePdChart).sum = 0 := by decide
    have hl : (allMargins onePdChart).length = 192 := by decide
    have hc : (List.map (fun p => calculateAttachmentLevel p.1 p.2)
        (allMarginDepthPairs onePdChart)).sum = 1 := by decide
    rw [meanMarginQ, summaryAcc_margins, hs, hl, hc]
    rw [if_pos (by norm_num)]
    norm_num

set_option maxRecDepth 40000 in
/-- Witness for C8: the all-default chart has reported mean attachment
level 0, the mean of its margins. -/
theorem summary_attachment_level_is_margin_mean_witness :
    (allMargins (initializeChart ([] : InitialValues))).length = 192 ∧
    meanMarginQ (initializeChart ([] : InitialValues)) =
      ((allMargins (initializeChart ([] : InitialValues))).sum : ℚ) / 192 :=
  (summary_attachment_level_is_margin_mean.1 (initializeChart ([] : InitialValues))
    (by decide))

theorem toFixed0_25 : toFixed0 25 = "25" := by
  have hf : ⌊(25 : ℚ) + 1 / 2⌋ = 25 := by
    rw [Int.floor_eq_iff]
    constructor <;> norm_num
  rw [toFixed0, hf]
  decide

/-- **C9.** The plaque and bleeding percentages are computed over all 64
(tooth × surface) site records — a site counts when any of its three
distal/mid/mesial flags is set — and a full chart with exactly 16 plaque
sites (respectively bleeding sites) reports the whole-number percentage
string `"25"`. -/
theorem summary_site_percentages :
    ∀ chart : Chart, FullChart chart →
      (summaryAcc chart).totalSites = 64 ∧
      (summaryAcc chart).plaqueCount = (siteRecords chart).countP anyPlaque ∧
      (summaryAcc chart).bleedingCount = (siteRecords chart).countP anyBleeding ∧
      ((siteRecords chart).countP anyPlaque = 16 → plaquePercent chart = "25") ∧
      ((siteRecords chart).countP anyBleeding = 16 → bleedingPercent chart = "25") := by
  intro chart hfull
  have htot : (summaryAcc chart).totalSites = 64 :=
    (summaryAcc_totalSites chart).trans (siteRecords_length_full hfull)
  refine ⟨htot, summaryAcc_plaque chart, summaryAcc_bleeding chart, ?_, ?_⟩
  · intro h16
    rw [plaquePercent, htot, summaryAcc_plaque chart, h16]
    rw [if_pos (by norm_num)]
    have hq : ((16 : ℕ) : ℚ) / ((64 : ℕ) : ℚ) * 100 = 25 := by norm_num
    rw [hq]
    exact toFixed0_25
  · intro h16
    rw [bleedingPercent, htot, summaryAcc_bleeding chart, h16]
    rw [if_pos (by norm_num)]
    have hq : ((16 : ℕ) : ℚ) / ((64 : ℕ) : ℚ) * 100 = 25 := by norm_num
    rw [hq]
    exact toFixed0_25

/-- A concrete chart whose 16 upper-jaw buccal sites carry a plaque flag. -/
def sixteenPlaqueChart : Chart :=
  initializeChart
    ((TOOTH_GROUPS_upperRight ++ TOOTH_GROUPS_upperLeft).map
      (fun t => (t, (⟨some { plaque_on_probing_distal := some true }, none⟩ : PartialToothData))))

set_option maxRecDepth 40000 in
/-- Witness for C9: the sixteen-plaque chart reports `"25"`. -/
theorem summary_site_percentages_witness :
    (siteRecords sixteenPlaqueChart).countP anyPlaque = 16 ∧
    plaquePercent sixteenPlaqueChart = "25" :=
  ⟨by decide,
   (summary_site_percentages sixteenPlaqueChart (by decide)).2.2.2.1 (by decide)⟩

/-! ### Numeric input commit: `parseInt` truncation versus the claimed floor -/

theorem takeWhile_all {p : Char → Bool} {l : List Char} (h : l.all p = true) :
    l.takeWhile p = l := by
  induction l with
  | nil => rfl
  | cons c cs ih =>
    simp only [List.all_cons, Bool.and_eq_true] at h
    rw [List.takeWhile_cons_of_pos h.1, ih h.2]

theorem isDigitChar_digit {d : Nat} (h : d < 10) : isDigitChar (Char.ofNat (48 + d)) = true := by
  interval_cases d <;> decide

theorem digitVal_digit {d : Nat} (h : d < 10) : digitVal (Char.ofNat (48 + d)) = d := by
  interval_cases d <;> decide

theorem natDigitsAux_all (fuel n : Nat) : (natDigitsAux fuel n).all isDigitChar = true := by
  induction fuel generalizing n with
  | zero =>
    simp [natDigitsAux, isDigitChar_digit (Nat.mod_lt n (by norm_num))]
  | succ fuel ih =>
    by_cases h : n < 10
    · simp [natDigitsAux, h, isDigitChar_digit h]
    · simp [natDigitsAux, h, List.all_append, ih,
        isDigitChar_digit (Nat.mod_lt n (by norm_num))]

theorem natDigitsAux_ne_nil (fuel n : Nat) : natDigitsAux fuel n ≠ [] := by
  cases fuel with
  | zero => simp [natDigitsAux]
  | succ fuel => by_cases h : n < 10 <;> simp [natDigitsAux, h]

theorem natDigits_all (n : Nat) : (natDigits n).all isDigitChar = true := natDigitsAux_all n n

theorem natDigits_ne_nil (n : Nat) : natDigits n ≠ [] := natDigitsAux_ne_nil n n

theorem natDigitsAux_foldl (fuel : Nat) :
    ∀ n a, n ≤ fuel →
      (natDigitsAux fuel n).foldl (fun acc c => 10 * acc + digitVal c) a =
        a * 10 ^ (natDigitsAux fuel n).length + n := by
  induction fuel with
  | zero =>
    intro n a h
    have hn : n = 0 := Nat.le_zero.mp h
    subst hn
    simp [natDigitsAux, digitVal_digit (show 0 < 10 by norm_num)]
    ring
  | succ fuel ih =>
    intro n a h
    by_cases hlt : n < 10
    · simp [natDigitsAux, hlt, digitVal_digit hlt]
      ring
    · have hdiv : n / 10 ≤ fuel := by
        have := Nat.div_lt_self (show 0 < n by omega) (show 1 < 10 by norm_num)
        omega
      simp only [natDigitsAux, if_neg hlt, List.foldl_append, List.length_append,
        List.foldl_cons, List.foldl_nil, List.length_cons, List.length_nil,
        digitVal_digit (Nat.mod_lt n (by norm_num))]
      rw [ih (n / 10) a hdiv]
      generalize (natDigitsAux fuel (n / 10)).length = L
      have hnm : 10 * (n / 10) + n % 10 = n := Nat.div_add_mod n 10
      generalize hq : n / 10 = q at hnm ⊢
      generalize hr : n % 10 = r at hnm ⊢
      rw [← hnm]
      ring

theorem parseDecDigits_natDigits (n : Nat) : parseDecDigits (natDigits n) = some n := by
  have htw : (natDigits n).takeWhile isDigitChar = natDigits n := takeWhile_all (natDigits_all n)
  rw [parseDecDigits, htw, if_neg (natDigits_ne_nil n)]
  rw [show natDigits n = natDigitsAux n n from rfl, natDigitsAux_foldl n n 0 (le_refl n)]
  simp

theorem parseIntBody_natDigits (n : Nat) : parseIntBody (natDigits n) = some n := by
  rcases hd : natDigits n with _ | ⟨c0, _ | ⟨c1, rest1⟩⟩
  · exact absurd hd (natDigits_ne_nil n)
  · rw [show parseIntBody [c0] = parseDecDigits [c0] from rfl, ← hd]
    exact parseDecDigits_natDigits n
  · have hc1 : isDigitChar c1 = true := by
      have hall := natDigits_all n
      rw [hd] at hall
      simp only [List.all_cons, Bool.and_eq_true] at hall
      exact hall.2.1
    have hcond : ¬(c0 = '0' ∧ (c1 = 'x' ∨ c1 = 'X')) := by
      rintro ⟨-, rfl | rfl⟩ <;> exact absurd hc1 (by decide)
    rw [show parseIntBody (c0 :: c1 :: rest1) =
          if c0 = '0' ∧ (c1 = 'x' ∨ c1 = 'X') then parseHexDigits rest1
          else parseDecDigits (c0 :: c1 :: rest1) from rfl,
        if_neg hcond, ← hd]
    exact parseDecDigits_natDigits n

theorem not_ws_of_digit {c : Char} (h : isDigitChar c = true) : isJsWs c = false := by
  simp only [isDigitChar, Bool.and_eq_true, decide_eq_true_eq] at h
  simp only [isJsWs, Bool.or_eq_false_iff, beq_eq_false_iff_ne]
  refine ⟨⟨⟨?_, ?_⟩, ?_⟩, ?_⟩ <;> (rintro rfl; revert h; decide)

theorem digit_ne_minus {c : Char} (h : isDigitChar c = true) : c ≠ '-' := by
  rintro rfl
  exact absurd h (by decide)

theorem digit_ne_plus {c : Char} (h : isDigitChar c = true) : c ≠ '+' := by
  rintro rfl
  exact absurd h (by decide)

/-- `Number.parseInt` recovers every canonically written integer exactly. -/
theorem jsParseInt_numeral (n : Int) (s : String) (hs : decimalRepr n s) :
    jsParseInt s = some n := by
  rw [jsParseInt]
  by_cases hneg : n < 0
  · rw [decimalRepr, intNumeral, if_pos hneg] at hs
    rw [hs, List.dropWhile_cons, if_neg (by decide)]
    simp only [jsParseIntAux, if_pos rfl]
    rw [parseIntBody_natDigits]
    show some (-((n.natAbs : Nat) : Int)) = some n
    congr 1
    omega
  · rw [decimalRepr, intNumeral, if_neg hneg] at hs
    obtain ⟨c0, rest0, hd⟩ := List.exists_cons_of_ne_nil (natDigits_ne_nil n.toNat)
    have hc0 : isDigitChar c0 = true := by
      have hall := natDigits_all n.toNat
      rw [hd] at hall
      simp only [List.all_cons, Bool.and_eq_true] at hall
      exact hall.1
    rw [hs, hd, List.dropWhile_cons, if_neg (by simp [not_ws_of_digit hc0])]
    simp only [jsParseIntAux, if_neg (digit_ne_minus hc0), if_neg (digit_ne_plus hc0)]
    rw [← hd, parseIntBody_natDigits]
    show some ((n.toNat : Int)) = some n
    congr 1
    omega

/-- **C4 counterexample.** The claim's formula `max(min, min(max, floor(v)))`
disagrees with the code on the input string `"-3.7"` for a gingival-margin
field (`[min, max] = [-10, 10]`): `Number.parseInt` truncates toward zero
and commits `-3`, while flooring the decimal value gives `-4`. -/
theorem numeric_commit_truncates_counterexample :
    commitNumericValue (-10) 10 "-3.7" = -3 ∧
    claimedFloorCommit (-10) 10 "-3.7" = -4 ∧
    commitNumericValue (-10) 10 "-3.7" ≠ claimedFloorCommit (-10) 10 "-3.7" :=
  ⟨by decide, by decide, by decide⟩

/-- **C4 (amended).** A committed numeric edit stores
`max(min, min(max, t(v)))` where `t` is `parseInt`'s truncation toward zero
of the leading integer part of the input (so on inputs that are canonical
integer numerals, `t(v) = v`, matching the claimed floor), and non-numeric
input coerces to 0 before clamping; in particular a probing-depth field
(`[0, 15]`) given `"99"` stores 15 and mobility (`[0, 3]`) given `"-5"`
stores 0. -/
theorem numeric_commit_clamps :
    (∀ (mn mx n : Int) (s : String), decimalRepr n s →
      commitNumericValue mn mx s = max mn (min mx n)) ∧
    (∀ (mn mx : Int) (s : String), jsParseInt s = none →
      commitNumericValue mn mx s = max mn (min mx 0)) ∧
    commitNumericValue 0 15 "99" = 15 ∧
    commitNumericValue 0 3 "-5" = 0 := by
  refine ⟨?_, ?_, by decide, by decide⟩
  · intro mn mx n s hs
    rw [commitNumericValue, jsParseInt_numeral n s hs]
    rfl
  · intro mn mx s hs
    rw [commitNumericValue, hs]
    rfl

/-- Witness for C4 (amended) at the claim's own example: input `"99"` on a
probing-depth field commits `max(0, min(15, 99)) = 15`. -/
theorem numeric_commit_clamps_witness :
    decimalRepr 99 "99" ∧ commitNumericValue 0 15 "99" = max 0 (min 15 99) :=
  ⟨by decide, numeric_commit_clamps.1 0 15 99 "99" (by decide)⟩
